import Mathlib

/-!
Shallow embedding of `src/registry.ts` (parchment's `Registry`).

JS reference semantics are made explicit: definition objects live in a
heap indexed by `Nat` object identities, and the registry's four tables
(`types`, `attributes`, `classes`, `tags`) store identities, not copies,
so the in-place `tagName` normalization performed by `register` is
visible through every table, and "identity equality" of a query result
is equality of identities.

Parts of the repository imported by `registry.ts` but absent from the
provided sources (`scope.ts`, the `isAttributor` / `isBlotConstructor`
shape checks, the `Attributor` and blot-constructor shapes) are
modelled from the spec where marked.
-/

set_option autoImplicit false

/-- First-match association-list lookup: models a JS object used as a
string-keyed (or identity-keyed) dictionary, where insertion is modelled
by consing, so the most recent write shadows older ones. -/
def tblGet {α β : Type} [DecidableEq α] : List (α × β) → α → Option β
  | [], _ => none
  | (k, v) :: rest, q => if q = k then some v else tblGet rest q

namespace Scope

/-- Modelled from the spec: `src/scope.ts` is not among the provided
sources.  The spec describes a scope bitmask with "two independent axes —
level and type — each a small closed set of mutually exclusive bit
values"; we use two type bits (mask 0b0011) and two level bits
(mask 0b1100), with BLOCK / INLINE each carrying one level bit plus the
full type mask, and ANY covering every bit, matching the uses
`scope & Scope.LEVEL & Scope.BLOCK`, `scope & Scope.TYPE & match.scope`
and the default `Scope.ANY` in `registry.ts`. -/
def TYPE : Nat := 3

/-- Level-axis mask (see `Scope.TYPE`). -/
def LEVEL : Nat := 12

/-- Block level bit joined with the full type mask. -/
def BLOCK : Nat := 11

/-- Inline level bit joined with the full type mask. -/
def INLINE : Nat := 7

/-- Attribute type bit joined with the full level mask. -/
def ATTRIBUTE : Nat := 13

/-- Blot type bit joined with the full level mask. -/
def BLOT : Nat := 14

/-- All bits: the default scope of `query`. -/
def ANY : Nat := 15

/-- `Scope.BLOCK & Scope.BLOT`. -/
def BLOCK_BLOT : Nat := 10

/-- `Scope.INLINE & Scope.BLOT`. -/
def INLINE_BLOT : Nat := 6

/-- `Scope.BLOCK & Scope.ATTRIBUTE`. -/
def BLOCK_ATTRIBUTE : Nat := 9

/-- `Scope.INLINE & Scope.ATTRIBUTE`. -/
def INLINE_ATTRIBUTE : Nat := 5

end Scope

/-- A blot constructor's `tagName` static field: a single string or an
array of strings. -/
inductive TagField : Type where
  | single (s : String)
  | multi (l : List String)
deriving DecidableEq

/-- JS truthiness of the `tagName` field: `undefined` is handled by the
caller (`Option`); the empty string is falsy, an array is always truthy. -/
def TagField.truthy : TagField → Bool
  | .single s => s ≠ ""
  | .multi _ => true

/-- JS `String.prototype.toUpperCase()` on the ASCII tag names the
registry handles, written over the character list. -/
def jsToUpper (s : String) : String :=
  (s.toList.map Char.toUpper).asString

/-- The in-place upper-casing `register` performs on `tagName`. -/
def TagField.upper : TagField → TagField
  | .single s => .single (jsToUpper s)
  | .multi l => .multi (l.map jsToUpper)

/-- The `tagNames` list `register` iterates over (after upper-casing):
`Array.isArray(definition.tagName) ? definition.tagName : [definition.tagName]`. -/
def TagField.toList : TagField → List String
  | .single s => [s]
  | .multi l => l

/-- A registrable JS value, as classified by `register`.  Modelled from
the spec: the `isBlotConstructor` / `isAttributor` shape checks and the
descriptor shapes live outside the provided sources; the spec gives the
two capability sets (structural name + optional tag(s) + optional class
+ scope, versus attribute name + optional key name + scope), and
`invalid` stands for any value matching neither shape. -/
inductive DefObj : Type where
  | blotCtor (blotName : String) (className : Option String)
      (tagName : Option TagField) (scope : Nat)
  | attributor (attrName : String) (keyName : Option String) (scope : Nat)
  | invalid
deriving DecidableEq

/-- The declared scope bitmask of a definition (`match.scope`). -/
def DefObj.scope : DefObj → Nat
  | .blotCtor _ _ _ s => s
  | .attributor _ _ s => s
  | .invalid => 0

/-- The by-name key `register` uses: `blotName` for blot constructors,
`attrName` for attributors. -/
def DefObj.defName : DefObj → String
  | .blotCtor n _ _ _ => n
  | .attributor n _ _ => n
  | .invalid => ""

/-- What `query` consumes of a node: `instanceof Text`, or
`instanceof Element` with a tag string and a nullable `class` attribute,
or neither (e.g. a comment node). -/
inductive NodeData : Type where
  | text
  | element (tagName : String) (classAttr : Option String)
  | other
deriving DecidableEq

/-- An external tree node.  `root` has a null `parentNode`, `child` has
the given parent, and reading `parentNode` of a `denied` node throws
(the permission-denied case `find` catches). -/
inductive DNode : Type where
  | root (id : Nat) (data : NodeData)
  | child (id : Nat) (data : NodeData) (parent : DNode)
  | denied (id : Nat) (data : NodeData)

/-- Node identity, the key of the static `Registry.blots` weak map. -/
def DNode.id : DNode → Nat
  | .root i _ => i
  | .child i _ _ => i
  | .denied i _ => i

/-- The payload `query` inspects. -/
def DNode.data : DNode → NodeData
  | .root _ d => d
  | .child _ d _ => d
  | .denied _ d => d

/-- A constructed blot.  Modelled from the spec: concrete blot classes
are out of scope; the spec's constructor contract binds the new object
to the given external node, so `domNodeId` is that node's identity, and
`blotId` is the fresh object identity of the blot itself. -/
structure Blot : Type where
  blotId : Nat
  domNodeId : Nat
deriving DecidableEq

/-- A `query` / `create` input: `string | Node | Scope`. -/
inductive QKey : Type where
  | str (s : String)
  | node (n : DNode)
  | scope (s : Nat)

/-- The mutable state: the registry instance's four tables (each maps a
string key to the identity of a definition object), the heap of
definition objects (JS object graph, made explicit so that the in-place
`tagName` mutation and reference equality are visible), and the static
`Registry.blots` node-to-blot association table. -/
structure Registry : Type where
  types : List (String × Nat)
  attributes : List (String × Nat)
  classes : List (String × Nat)
  tags : List (String × Nat)
  heap : List (Nat × DefObj)
  blots : List (Nat × Blot)
deriving DecidableEq

/-- Whether a character matches the JS regex class `\s` (the forms that
can occur in a class attribute). -/
def isJsWs (c : Char) : Bool :=
  c = ' ' ∨ c = '\t' ∨ c = '\n' ∨ c = '\r' ∨ c = '\x0b' ∨ c = '\x0c'

/-- Helper for `splitWs`: accumulates the current piece (reversed);
`inWs` records whether the previous character belonged to the current
whitespace run (a maximal run is a single separator). -/
def splitWsAux : List Char → Bool → List Char → List (List Char)
  | [], _, acc => [acc.reverse]
  | c :: rest, inWs, acc =>
    if isJsWs c then
      if inWs then splitWsAux rest true acc
      else acc.reverse :: splitWsAux rest true []
    else splitWsAux rest false (c :: acc)

/-- JS `s.split(/\s+/)`: the pieces between maximal whitespace runs,
keeping empty leading/trailing pieces (so `""` splits to `[""]`). -/
def splitWs (s : String) : List String :=
  (splitWsAux s.toList false []).map List.asString

/-- The `names.some((name) => { match = this.classes[name]; ... })` loop
of `query`, with the captured mutable `match` passed explicitly: every
iteration overwrites `match` with the (possibly missing) class-table
entry and stops as soon as it is truthy. -/
def someAssign (classes : List (String × Nat)) : List String → Option Nat → Option Nat
  | [], m => m
  | n :: rest, _ =>
    match tblGet classes n with
    | some d => some d
    | none => someAssign classes rest none

/-- The match found by `query` before the scope filter (the `match`
variable once the dispatch on the key's shape is done). -/
def queryRef (r : Registry) : QKey → Option Nat
  | .str q =>
    match tblGet r.types q with
    | some m => some m
    | none => tblGet r.attributes q
  | .node n =>
    match n.data with
    | .text => tblGet r.types "text"
    | .element tag cls =>
      match someAssign r.classes (splitWs (cls.getD "")) none with
      | some m => some m
      | none => tblGet r.tags tag
    | .other => none
  | .scope q =>
    if q &&& Scope.LEVEL &&& Scope.BLOCK ≠ 0 then tblGet r.types "block"
    else if q &&& Scope.LEVEL &&& Scope.INLINE ≠ 0 then tblGet r.types "inline"
    else none

/-- `Registry.query(query, scope = Scope.ANY)`: dispatch on the key's
shape, then discard the match unless the requested scope intersects its
declared scope on both the level axis and the type axis.  Returns the
identity of the matched definition object (`'scope' in match` always
holds for a stored definition). -/
def Registry.query (r : Registry) (q : QKey) (scope : Nat) : Option Nat :=
  match queryRef r q with
  | none => none
  | some i =>
    match tblGet r.heap i with
    | none => none
    | some d =>
      if scope &&& Scope.LEVEL &&& d.scope ≠ 0 ∧ scope &&& Scope.TYPE &&& d.scope ≠ 0 then
        some i
      else none

/-- The two `ParchmentError`s `register` can throw. -/
inductive RegErr : Type where
  | invalidDefinition
  | abstractRegistration
deriving DecidableEq

/-- One iteration of `register`'s `definitions.map` callback, acting on
the definition object with identity `i`: classify, reject invalid and
abstract, write `types`, then `attributes` (attributor with a string
`keyName`) or `classes` (truthy `className`) and `tags` (truthy
`tagName`, upper-cased in place first, each tag written only when the
slot is empty or the definition's `className` is `== null`).  Returns
the thrown error, if any, together with the state as mutated so far. -/
def register1 (r : Registry) (i : Nat) : Option RegErr × Registry :=
  match tblGet r.heap i with
  | none => (some .invalidDefinition, r)
  | some .invalid => (some .invalidDefinition, r)
  | some (.attributor attrName keyName _) =>
    let r1 := { r with types := (attrName, i) :: r.types }
    match keyName with
    | some k => (none, { r1 with attributes := (k, i) :: r1.attributes })
    | none => (none, r1)
  | some (.blotCtor blotName className tagName scope) =>
    if blotName = "abstract" then (some .abstractRegistration, r)
    else
      let r1 := { r with types := (blotName, i) :: r.types }
      let r2 :=
        match className with
        | some c => if c = "" then r1 else { r1 with classes := (c, i) :: r1.classes }
        | none => r1
      match tagName with
      | some tf =>
        if tf.truthy then
          let tf' := tf.upper
          let r3 := { r2 with
            heap := (i, .blotCtor blotName className (some tf') scope) :: r2.heap }
          let r4 := tf'.toList.foldl (fun acc tag =>
            if tblGet acc.tags tag = none ∨ className = none then
              { acc with tags := (tag, i) :: acc.tags }
            else acc) r3
          (none, r4)
        else (none, r2)
      | none => (none, r2)

/-- `Registry.register(...definitions)`: maps `register1` over the batch
in order.  A throw inside `Array.prototype.map` aborts the whole map, so
the error (if any) is returned together with the state mutated so far
and the list of definitions successfully processed before the throw (on
success, `map` returns the same definition objects). -/
def Registry.register (r : Registry) : List Nat → Option RegErr × Registry × List Nat
  | [] => (none, r, [])
  | i :: rest =>
    match register1 r i with
    | (some e, r1) => (some e, r1, [])
    | (none, r1) =>
      match Registry.register r1 rest with
      | (err, r2, done) => (err, r2, i :: done)

/-- How `Registry.create` can fail: `UnresolvedBlot` is the
`ParchmentError('Unable to create ... blot')` thrown on a null query;
`typeErr` is the TypeError JS raises when the unchecked
`match as BlotConstructor` cast is wrong — the matched definition is an
attributor object, which has no static `create` method and is not a
constructor, so `blotClass.create(value)` / `new blotClass(...)` throws. -/
inductive CreateErr : Type where
  | unresolvedBlot
  | typeErr
deriving DecidableEq

/-- `Registry.create(scroll, input, value?)`: query the input (default
`Scope.ANY`); on a null match throw `UnresolvedBlot`; otherwise take the
input node, or have the blot class synthesize a fresh one (`freshNode`
is the identity the environment gives that new node), construct the blot
(`freshBlot` is its fresh object identity; the spec's constructor
contract binds it to the node), and enter it into the static
`Registry.blots` table keyed by `blot.domNode`, overwriting any prior
association.  `scroll` and `value` are passed through to the
out-of-scope constructor and factory and do not affect the registry. -/
def Registry.create (r : Registry) (input : QKey) (freshNode freshBlot : Nat) :
    Except CreateErr (Blot × Registry) :=
  match r.query input Scope.ANY with
  | none => .error .unresolvedBlot
  | some i =>
    match tblGet r.heap i with
    | some (.blotCtor _ _ _ _) =>
      let nodeId := match input with
        | .node n => n.id
        | .str _ => freshNode
        | .scope _ => freshNode
      let b : Blot := ⟨freshBlot, nodeId⟩
      .ok (b, { r with blots := (b.domNodeId, b) :: r.blots })
    | _ => .error .typeErr

/-- The recursion of the static `Registry.find(node, bubble)` on a
non-null node: a direct association is returned; otherwise, with
`bubble`, the walk moves to `parentNode` (null parent ends the walk, a
throwing parent accessor is caught and yields null); without `bubble`
the result is null immediately. -/
def findLoop (blots : List (Nat × Blot)) (bubble : Bool) : DNode → Option Blot
  | .root i _ =>
    match tblGet blots i with
    | some b => some b
    | none => none
  | .denied i _ =>
    match tblGet blots i with
    | some b => some b
    | none => none
  | .child i _ p =>
    match tblGet blots i with
    | some b => some b
    | none => if bubble then findLoop blots bubble p else none

/-- `Registry.find(node?, bubble = false)` (static): null node gives
null, otherwise `findLoop`. -/
def staticFind (blots : List (Nat × Blot)) (node : Option DNode) (bubble : Bool) :
    Option Blot :=
  match node with
  | none => none
  | some n => findLoop blots bubble n

/-- A registry with empty tables (fresh `new Registry()`), over a given
heap of definition objects. -/
def initRegistry (heap : List (Nat × DefObj)) : Registry :=
  ⟨[], [], [], [], heap, []⟩

/-- The spec's description of element-node resolution, for comparison
with the `someAssign` loop: scan the class tokens in order and take the
first with a by-class match. -/
def firstClassMatch (classes : List (String × Nat)) : List String → Option Nat
  | [] => none
  | n :: rest =>
    match tblGet classes n with
    | some d => some d
    | none => firstClassMatch classes rest

/-- The chain of node identities `find` can visit when bubbling: the
node itself, then its ancestors, stopping where the parent link is null
or its accessor throws. -/
def bubbleChain : DNode → List Nat
  | .root i _ => [i]
  | .denied i _ => [i]
  | .child i _ p => i :: bubbleChain p

/-- First identity in the list with an association. -/
def firstAssoc (blots : List (Nat × Blot)) : List Nat → Option Blot
  | [] => none
  | i :: rest =>
    match tblGet blots i with
    | some b => some b
    | none => firstAssoc blots rest

/-- A concrete heap of definition objects used in concrete instances:
an invalid value, a bold inline blot, an italic inline blot. -/
def wHeap : List (Nat × DefObj) :=
  [(0, .invalid),
   (1, .blotCtor "bold" none (some (.single "b")) Scope.INLINE_BLOT),
   (2, .blotCtor "italic" none (some (.single "em")) Scope.INLINE_BLOT)]

/-- A registry holding only the registered attributor `"color"`. -/
def attrOnlyReg : Registry :=
  (Registry.register
    (initRegistry [(0, .attributor "color" (some "color") Scope.INLINE_ATTRIBUTE)]) [0]).2.1

/-- A registry holding only the registered block blot. -/
def blotOnlyReg : Registry :=
  (Registry.register
    (initRegistry [(0, .blotCtor "block" none (some (.single "p")) Scope.BLOCK_BLOT)]) [0]).2.1

/-- The by-class insertion step of `register` (`if (definition.className)
{ this.classes[definition.className] = definition; }`): inserted only
when the class name is truthy (present and nonempty). -/
def classIns (cl : Option String) (i : Nat) (t : List (String × Nat)) : List (String × Nat) :=
  match cl with
  | some c => if c = "" then t else (c, i) :: t
  | none => t

/-- Concrete heap for the tag tie-break instance: descriptor A declares
tag `"x"` and class `"c1"`, descriptor B declares tag `"X"` and no
class. -/
def tbHeap : List (Nat × DefObj) :=
  [(0, .blotCtor "a" (some "c1") (some (.single "x")) Scope.BLOCK_BLOT),
   (1, .blotCtor "bgen" none (some (.single "X")) Scope.BLOCK_BLOT)]

/-! ## Helper lemmas -/

/-- The `names.some` loop with mutable `match` computes exactly the
first class-table hit over the token list. -/
theorem someAssign_eq_firstClassMatch (classes : List (String × Nat)) (names : List String) :
    someAssign classes names none = firstClassMatch classes names := by
  induction names with
  | nil => rfl
  | cons n rest ih =>
    simp only [someAssign, firstClassMatch]
    cases tblGet classes n <;> simp [ih]

/-! ## Claims -/

/-- C9: `find(node, bubble)` returns null for a null node; with
`bubble` set it returns the association of the first node in the
upward chain (the node, then its ancestors, the walk ending at a null
parent or swallowing a throwing parent accessor) that has one, null if
none has; with `bubble` unset it returns the node's direct association
or null, with no upward search. -/
theorem find_characterization :
    (∀ (blots : List (Nat × Blot)) (b : Bool), staticFind blots none b = none) ∧
    (∀ (blots : List (Nat × Blot)) (n : DNode),
      staticFind blots (some n) true = firstAssoc blots (bubbleChain n)) ∧
    (∀ (blots : List (Nat × Blot)) (n : DNode),
      staticFind blots (some n) false = tblGet blots n.id) := by
  refine ⟨fun _ _ => rfl, fun blots n => ?_, fun blots n => ?_⟩
  · induction n with
    | root i d =>
      simp only [staticFind, findLoop, bubbleChain, firstAssoc]
    | denied i d =>
      simp only [staticFind, findLoop, bubbleChain, firstAssoc]
    | child i d p ih =>
      simp only [staticFind, findLoop, bubbleChain, firstAssoc] at *
      cases tblGet blots i <;> simp [ih]
  · cases n with
    | root i d =>
      simp only [staticFind, findLoop, DNode.id]
      cases h : tblGet blots i <;> simp [h]
    | denied i d =>
      simp only [staticFind, findLoop, DNode.id]
      cases h : tblGet blots i <;> simp [h]
    | child i d p =>
      simp only [staticFind, findLoop, DNode.id]
      cases h : tblGet blots i <;> simp [h]

/-- C2: when `query` finds a non-null candidate, the result is that
candidate exactly when the requested scope bitmask intersects the
candidate's declared scope on both the level axis and the type axis;
sharing no bits on either axis makes `query` return null. -/
theorem query_scope_conjunctive (r : Registry) (k : QKey) (scope : Nat) (i : Nat) (d : DefObj)
    (href : queryRef r k = some i) (hheap : tblGet r.heap i = some d) :
    (r.query k scope = some i ↔
      scope &&& Scope.LEVEL &&& d.scope ≠ 0 ∧ scope &&& Scope.TYPE &&& d.scope ≠ 0) ∧
    ((scope &&& Scope.LEVEL &&& d.scope = 0 ∨ scope &&& Scope.TYPE &&& d.scope = 0) →
      r.query k scope = none) := by
  simp only [Registry.query, href, hheap]
  constructor
  · split
    · simp_all
    · simp_all [not_and_or]
  · intro h
    rw [if_neg]
    rcases h with h | h <;> simp [h]

/-- C2 witness: an inline-scoped definition queried under a block-only
requested scope is discarded even though the by-name lookup matches. -/
theorem query_scope_conjunctive_witness :
    (Registry.query ⟨[("bold", 0)], [], [], [], [(0, .blotCtor "bold" none none Scope.INLINE_BLOT)], []⟩
        (.str "bold") Scope.BLOCK = none) ∧
    (Registry.query ⟨[("bold", 0)], [], [], [], [(0, .blotCtor "bold" none none Scope.INLINE_BLOT)], []⟩
        (.str "bold") Scope.ANY = some 0) := by
  constructor
  · exact (query_scope_conjunctive _ (.str "bold") Scope.BLOCK 0
      (.blotCtor "bold" none none Scope.INLINE_BLOT) (by decide) (by decide)).2
      (by left; decide)
  · exact (query_scope_conjunctive _ (.str "bold") Scope.ANY 0
      (.blotCtor "bold" none none Scope.INLINE_BLOT) (by decide) (by decide)).1.mpr
      (by decide)

/-- C5: querying an external element node scans the node's
class-attribute tokens in whitespace-delimited order and takes the
first token with a by-class match; if no token matches it falls back to
the by-tag entry for the node's tag; if neither matches, `query`
returns null (a value, not an error). -/
theorem query_element_resolution (r : Registry) (n : DNode) (tag : String)
    (cls : Option String) (hdata : n.data = .element tag cls) :
    (queryRef r (.node n) =
      match firstClassMatch r.classes (splitWs (cls.getD "")) with
      | some m => some m
      | none => tblGet r.tags tag) ∧
    (firstClassMatch r.classes (splitWs (cls.getD "")) = none →
      tblGet r.tags tag = none →
      ∀ scope, r.query (.node n) scope = none) := by
  have h1 : queryRef r (.node n) =
      match firstClassMatch r.classes (splitWs (cls.getD "")) with
      | some m => some m
      | none => tblGet r.tags tag := by
    simp only [queryRef, hdata, someAssign_eq_firstClassMatch]
  refine ⟨h1, fun hc ht scope => ?_⟩
  simp only [Registry.query, h1, hc, ht]

/-- C5 witness: a node with class attribute `"x ql-bold"` resolves by
its second token (the first with a by-class match), beating the by-tag
entry; with no matching token the tag entry is used; with neither,
`query` is null. -/
theorem query_element_resolution_witness :
    (queryRef ⟨[], [], [("ql-bold", 1)], [("EM", 2)], [], []⟩
        (.node (.root 7 (.element "EM" (some "x ql-bold")))) = some 1) ∧
    (queryRef ⟨[], [], [("ql-bold", 1)], [("EM", 2)], [], []⟩
        (.node (.root 7 (.element "EM" (some "x y")))) = some 2) ∧
    (Registry.query ⟨[], [], [("ql-bold", 1)], [("EM", 2)], [], []⟩
        (.node (.root 7 (.element "STRONG" (some "x y")))) Scope.ANY = none) := by
  refine ⟨?_, ?_, ?_⟩
  · rw [(query_element_resolution _ (.root 7 (.element "EM" (some "x ql-bold")))
      "EM" (some "x ql-bold") rfl).1]
    decide
  · rw [(query_element_resolution _ (.root 7 (.element "EM" (some "x y")))
      "EM" (some "x y") rfl).1]
    decide
  · exact (query_element_resolution _ (.root 7 (.element "STRONG" (some "x y")))
      "STRONG" (some "x y") rfl).2 (by decide) (by decide) Scope.ANY

/-- C4: registering a blot constructor whose `blotName` is the reserved
sentinel `"abstract"` throws `AbstractRegistration` and leaves the
whole registry state (all four tables and the heap) unchanged. -/
theorem register_abstract_rejected (r : Registry) (i : Nat) (cl : Option String)
    (tf : Option TagField) (sc : Nat)
    (hheap : tblGet r.heap i = some (.blotCtor "abstract" cl tf sc)) :
    register1 r i = (some .abstractRegistration, r) ∧
    Registry.register r [i] = (some .abstractRegistration, r, []) := by
  have h1 : register1 r i = (some .abstractRegistration, r) := by
    simp [register1, hheap]
  exact ⟨h1, by simp [Registry.register, h1]⟩

/-- C4 witness: a concrete abstract-named descriptor is rejected with
no side effect. -/
theorem register_abstract_rejected_witness :
    Registry.register (initRegistry [(0, .blotCtor "abstract" none (some (.single "div")) Scope.BLOCK_BLOT)]) [0] =
      (some .abstractRegistration,
        initRegistry [(0, .blotCtor "abstract" none (some (.single "div")) Scope.BLOCK_BLOT)], []) :=
  (register_abstract_rejected
    (initRegistry [(0, .blotCtor "abstract" none (some (.single "div")) Scope.BLOCK_BLOT)])
    0 none (some (.single "div")) Scope.BLOCK_BLOT (by decide)).2

/-- C3 counterexample: `register` maps over the batch with a throwing
callback, so the throw at the invalid first definition aborts the whole
`Array.prototype.map` — the valid `"bold"` blot later in the same batch
is never attempted (its name resolves to nothing afterwards), refuting
"other definitions in the same batch are still attempted". -/
theorem register_batch_abort_cx :
    (Registry.register (initRegistry wHeap) [0, 1]).1 = some .invalidDefinition ∧
    (Registry.register (initRegistry wHeap) [0, 1]).2.1 = initRegistry wHeap ∧
    tblGet ((Registry.register (initRegistry wHeap) [0, 1]).2.1).types "bold" = none := by
  decide

/-- C3 (amended): a definition matching neither descriptor shape makes
that `register` call fail with `InvalidDefinition`; definitions earlier
in the batch have already been registered and stay registered, but the
definitions after the invalid one are not attempted — the batch aborts
at the first invalid entry. -/
theorem register_invalid_aborts_batch (r r1 : Registry) (pre : List Nat) (j : Nat)
    (rest : List Nat)
    (hpre : Registry.register r pre = (none, r1, pre))
    (hj : tblGet r1.heap j = some .invalid) :
    Registry.register r (pre ++ j :: rest) = (some .invalidDefinition, r1, pre) := by
  induction pre generalizing r with
  | nil =>
    have hr : r = r1 := by
      simpa [Registry.register, Prod.ext_iff] using hpre
    subst hr
    simp [Registry.register, register1, hj]
  | cons i pre' ih =>
    rcases h1 : register1 r i with ⟨oe, ri⟩
    cases oe with
    | some e => simp [Registry.register, h1] at hpre
    | none =>
      rcases h2 : Registry.register ri pre' with ⟨err, r2, done⟩
      simp only [Registry.register, h1, h2] at hpre
      obtain ⟨he, hr2, hdone⟩ : err = none ∧ r2 = r1 ∧ done = pre' := by
        simp only [Prod.mk.injEq, List.cons.injEq, true_and] at hpre
        tauto
      subst he hr2 hdone
      simp only [List.cons_append, Registry.register, h1]
      simp [ih ri h2]

/-- C3 witness for the amended claim: with the batch (valid bold,
invalid, valid italic) over `wHeap`, the call fails with
`InvalidDefinition`, bold stays registered, italic is never attempted. -/
theorem register_invalid_aborts_batch_witness :
    Registry.register (initRegistry wHeap) ([1] ++ 0 :: [2]) =
      (some .invalidDefinition, (Registry.register (initRegistry wHeap) [1]).2.1, [1]) :=
  register_invalid_aborts_batch (initRegistry wHeap)
    ((Registry.register (initRegistry wHeap) [1]).2.1) [1] 0 [2] rfl rfl

/-- C6 counterexample: in `attrOnlyReg`, `query("color")` resolves a
definition, yet `create` does not return a constructed blot — the
resolved definition is an attributor, so the unchecked
`match as BlotConstructor` cast makes construction throw a TypeError
(not `UnresolvedBlot`), refuting "when query resolves a definition,
create … returns a constructed blot". -/
theorem create_resolved_not_blot_cx :
    (Registry.query attrOnlyReg (.str "color") Scope.ANY).isSome = true ∧
    Registry.create attrOnlyReg (.str "color") 5 6 = .error .typeErr :=
  ⟨rfl, rfl⟩

/-- C6 (amended): `create` fails with `UnresolvedBlot` exactly when
`query(input)` is null; when `query` resolves a blot constructor,
`create` returns a constructed blot; when it resolves an attribute
handler, `create` still does not raise `UnresolvedBlot` but fails with
a TypeError instead of returning a blot. -/
theorem create_unresolved_iff (r : Registry) (input : QKey) (fn fb : Nat) :
    (r.create input fn fb = .error .unresolvedBlot ↔ r.query input Scope.ANY = none) ∧
    (∀ (i : Nat) (n : String) (cl : Option String) (tf : Option TagField) (sc : Nat),
      r.query input Scope.ANY = some i →
      tblGet r.heap i = some (.blotCtor n cl tf sc) →
      ∃ (b : Blot) (r2 : Registry), r.create input fn fb = .ok (b, r2)) ∧
    (∀ (i : Nat) (a : String) (k : Option String) (sc : Nat),
      r.query input Scope.ANY = some i →
      tblGet r.heap i = some (.attributor a k sc) →
      r.create input fn fb = .error .typeErr) := by
  refine ⟨⟨fun h => ?_, fun h => ?_⟩, fun i n cl tf sc hq hh => ?_, fun i a k sc hq hh => ?_⟩
  · by_contra hqn
    rcases hq2 : r.query input Scope.ANY with _ | i
    · exact hqn hq2
    · simp only [Registry.create, hq2] at h
      rcases hh : tblGet r.heap i with _ | d
      · simp [hh] at h
      · cases d <;> simp [hh] at h
  · simp [Registry.create, h]
  · simp only [Registry.create, hq, hh]
    exact ⟨_, _, rfl⟩
  · simp only [Registry.create, hq, hh]

/-- C6 witness: concrete instances of all three branches of the amended
claim — unresolved key, resolved blot constructor, resolved attributor. -/
theorem create_unresolved_iff_witness :
    Registry.create attrOnlyReg (.str "missing") 5 6 = .error .unresolvedBlot ∧
    (∃ (b : Blot) (r2 : Registry), Registry.create blotOnlyReg (.str "block") 5 6 = .ok (b, r2)) ∧
    Registry.create attrOnlyReg (.str "color") 7 8 = .error .typeErr := by
  refine ⟨?_, ?_, ?_⟩
  · exact (create_unresolved_iff attrOnlyReg (.str "missing") 5 6).1.mpr rfl
  · exact (create_unresolved_iff blotOnlyReg (.str "block") 5 6).2.1 0 "block" none
      (some (.single "P")) Scope.BLOCK_BLOT rfl rfl
  · exact (create_unresolved_iff attrOnlyReg (.str "color") 7 8).2.2 0 "color"
      (some "color") Scope.INLINE_ATTRIBUTE rfl rfl

/-- C10: when a name is registered only as an attribute handler (the
by-name table maps it to an attributor object whose scope carries a bit
on each axis), the string query under the default ANY scope resolves
that handler, so `create` on that name cannot fail with
`UnresolvedBlot` — even though the resolved definition is not a blot
constructor. -/
theorem create_attr_no_unresolved (r : Registry) (name : String) (i : Nat)
    (a : String) (k : Option String) (sc : Nat) (fn fb : Nat)
    (htypes : tblGet r.types name = some i)
    (hheap : tblGet r.heap i = some (.attributor a k sc))
    (hl : Scope.LEVEL &&& sc ≠ 0) (ht : Scope.TYPE &&& sc ≠ 0) :
    r.query (.str name) Scope.ANY = some i ∧
    r.create (.str name) fn fb ≠ .error .unresolvedBlot := by
  have hq : r.query (.str name) Scope.ANY = some i := by
    have e1 : Scope.ANY &&& Scope.LEVEL = Scope.LEVEL := by decide
    have e2 : Scope.ANY &&& Scope.TYPE = Scope.TYPE := by decide
    simp only [Registry.query, queryRef, htypes, hheap, DefObj.scope, e1, e2]
    simp [hl, ht]
  refine ⟨hq, ?_⟩
  simp [Registry.create, hq, hheap]

/-- C10 witness: `attrOnlyReg` registers `"color"` only as an
attributor; `create` on it does not raise `UnresolvedBlot`. -/
theorem create_attr_no_unresolved_witness :
    Registry.query attrOnlyReg (.str "color") Scope.ANY = some 0 ∧
    Registry.create attrOnlyReg (.str "color") 3 4 ≠ .error .unresolvedBlot :=
  create_attr_no_unresolved attrOnlyReg "color" 0 "color" (some "color")
    Scope.INLINE_ATTRIBUTE 3 4 rfl rfl (by decide) (by decide)

/-- C7: a successful `create` enters the constructed blot into the
node-to-blot table keyed by the blot's node, overwriting any prior
association for that node identity, so an immediate `find` on that node
with `bubble = false` returns the very object `create` produced. -/
theorem create_then_find (r : Registry) (input : QKey) (fn fb : Nat) (b : Blot)
    (r2 : Registry) (h : r.create input fn fb = .ok (b, r2)) :
    tblGet r2.blots b.domNodeId = some b ∧
    ∀ n : DNode, n.id = b.domNodeId → staticFind r2.blots (some n) false = some b := by
  have hblots : r2.blots = (b.domNodeId, b) :: r.blots := by
    rcases hq : r.query input Scope.ANY with _ | i
    · simp [Registry.create, hq] at h
    · simp only [Registry.create, hq] at h
      rcases hh : tblGet r.heap i with _ | d
      · simp [hh] at h
      · cases d with
        | blotCtor n cl tf sc =>
          simp only [hh] at h
          obtain ⟨hb, hr2⟩ : _ ∧ _ = r2 := by
            simpa using h
          subst hb
          rw [← hr2]
        | attributor a k sc => simp [hh] at h
        | invalid => simp [hh] at h
  have hdirect : tblGet r2.blots b.domNodeId = some b := by
    simp [hblots, tblGet]
  refine ⟨hdirect, fun n hn => ?_⟩
  cases n <;> simp_all [staticFind, findLoop, DNode.id]

/-- C7 witness: creating a `"block"` blot around an existing node with
identity 9 binds that node to the new blot, and `find` (no bubbling)
returns it. -/
theorem create_then_find_witness :
    tblGet ((Registry.create blotOnlyReg (.node (.root 9 (.element "P" none))) 5 6).toOption.get rfl).2.blots 9 = some ⟨6, 9⟩ ∧
    staticFind ((Registry.create blotOnlyReg (.node (.root 9 (.element "P" none))) 5 6).toOption.get rfl).2.blots
      (some (.root 9 (.element "P" none))) false = some ⟨6, 9⟩ := by
  have h := create_then_find blotOnlyReg (.node (.root 9 (.element "P" none))) 5 6
    ⟨6, 9⟩ ((Registry.create blotOnlyReg (.node (.root 9 (.element "P" none))) 5 6).toOption.get rfl).2 rfl
  exact ⟨h.1, h.2 (.root 9 (.element "P" none)) rfl⟩

/-- A class table with no entry for the empty token keeps that property
under the by-class insertion step (the truthiness guard keeps `""` out). -/
theorem classIns_empty_miss (cl : Option String) (i : Nat) (t : List (String × Nat))
    (h : tblGet t "" = none) : tblGet (classIns cl i t) "" = none := by
  rcases cl with _ | c
  · exact h
  · by_cases hc : c = ""
    · simp [classIns, hc, h]
    · simp [classIns, hc, tblGet, h, Ne.symm hc]

/-- Explicit state after `register1` on a blot constructor carrying a
single truthy tag: name written to `types`, class written via
`classIns`, tag upper-cased in place in the heap and written to `tags`
when the slot is empty or the class name is `== null`. -/
theorem register1_blot_single (r : Registry) (i : Nat) (n t : String)
    (cl : Option String) (sc : Nat)
    (hd : tblGet r.heap i = some (.blotCtor n cl (some (.single t)) sc))
    (hn : n ≠ "abstract") (ht : t ≠ "") :
    register1 r i = (none,
      { types := (n, i) :: r.types,
        attributes := r.attributes,
        classes := classIns cl i r.classes,
        tags := if tblGet r.tags (jsToUpper t) = none ∨ cl = none
          then (jsToUpper t, i) :: r.tags else r.tags,
        heap := (i, .blotCtor n cl (some (.single (jsToUpper t))) sc) :: r.heap,
        blots := r.blots }) := by
  by_cases hcond : tblGet r.tags (jsToUpper t) = none ∨ cl = none <;>
    rcases cl with _ | c
  · simp [register1, hd, if_neg hn, TagField.truthy, TagField.upper, TagField.toList,
      classIns, ht, List.foldl, hcond]
  · by_cases hc : c = "" <;>
      simp [register1, hd, if_neg hn, TagField.truthy, TagField.upper, TagField.toList,
        classIns, ht, hc, List.foldl, hcond] <;>
      split <;> rfl
  · simp [register1, hd, if_neg hn, TagField.truthy, TagField.upper, TagField.toList,
      classIns, ht, List.foldl, hcond]
  · by_cases hc : c = "" <;>
      simp [register1, hd, if_neg hn, TagField.truthy, TagField.upper, TagField.toList,
        classIns, ht, hc, List.foldl, hcond] <;>
      split <;> rfl

/-- C1: registering descriptor A then descriptor B into an empty
registry, where both are blot constructors whose single declared tags
upper-case to the same tag T, leaves the by-tag entry for T at A (the
first registered) unless B declares no class-attribute name, in which
case B overrides; a query of an element node with tag T and no class
attribute resolves to the same winner (in particular to B, not A, when
B is class-less). -/
theorem register_tag_tiebreak
    (heap : List (Nat × DefObj)) (iA iB : Nat) (hne : iB ≠ iA)
    (nA nB T tA tB : String) (clA clB : Option String) (scA scB : Nat)
    (hA : tblGet heap iA = some (.blotCtor nA clA (some (.single tA)) scA))
    (hB : tblGet heap iB = some (.blotCtor nB clB (some (.single tB)) scB))
    (hnA : nA ≠ "abstract") (hnB : nB ≠ "abstract")
    (htA : tA ≠ "") (htB : tB ≠ "")
    (hTA : jsToUpper tA = T) (hTB : jsToUpper tB = T)
    (hscA : Scope.LEVEL &&& scA ≠ 0) (hscA2 : Scope.TYPE &&& scA ≠ 0)
    (hscB : Scope.LEVEL &&& scB ≠ 0) (hscB2 : Scope.TYPE &&& scB ≠ 0) :
    tblGet ((register1 (register1 (initRegistry heap) iA).2 iB).2).tags T =
      some (if clB = none then iB else iA) ∧
    ∀ nid : Nat,
      Registry.query ((register1 (register1 (initRegistry heap) iA).2 iB).2)
        (.node (.root nid (.element T none))) Scope.ANY =
        some (if clB = none then iB else iA) := by
  have e1 : Scope.ANY &&& Scope.LEVEL = Scope.LEVEL := by decide
  have e2 : Scope.ANY &&& Scope.TYPE = Scope.TYPE := by decide
  have hregA := register1_blot_single (initRegistry heap) iA nA tA clA scA
    (by simpa [initRegistry] using hA) hnA htA
  rw [hTA] at hregA
  have hs1 : (register1 (initRegistry heap) iA).2 =
      { types := [(nA, iA)], attributes := [], classes := classIns clA iA [],
        tags := [(T, iA)],
        heap := (iA, .blotCtor nA clA (some (.single T)) scA) :: heap,
        blots := [] } := by
    rw [hregA]
    simp [initRegistry, tblGet]
  have hB1 : tblGet ((register1 (initRegistry heap) iA).2).heap iB =
      some (.blotCtor nB clB (some (.single tB)) scB) := by
    rw [hs1]
    simp [tblGet, hne, hB]
  have hregB := register1_blot_single ((register1 (initRegistry heap) iA).2)
    iB nB tB clB scB hB1 hnB htB
  rw [hTB] at hregB
  have hs2 : (register1 (register1 (initRegistry heap) iA).2 iB).2 =
      { types := (nB, iB) :: [(nA, iA)], attributes := [],
        classes := classIns clB iB (classIns clA iA []),
        tags := if clB = none then (T, iB) :: [(T, iA)] else [(T, iA)],
        heap := (iB, .blotCtor nB clB (some (.single T)) scB) ::
          (iA, .blotCtor nA clA (some (.single T)) scA) :: heap,
        blots := [] } := by
    rw [hregB, hs1]
    simp [tblGet]
  have hclasses : tblGet (classIns clB iB (classIns clA iA [])) "" = none :=
    classIns_empty_miss _ _ _ (classIns_empty_miss _ _ _ rfl)
  have hsp : splitWs "" = [""] := rfl
  have hemp : ([] : List Char).asString = "" := rfl
  by_cases hclB : clB = none
  · subst hclB
    refine ⟨by simp [hs2, tblGet], fun nid => ?_⟩
    have hqr : queryRef ((register1 (register1 (initRegistry heap) iA).2 iB).2)
        (.node (.root nid (.element T none))) = some iB := by
      simp [queryRef, hs2, DNode.data, hsp, hemp, someAssign, hclasses, tblGet]
    have hderef : tblGet ((register1 (register1 (initRegistry heap) iA).2 iB).2).heap iB =
        some (.blotCtor nB none (some (.single T)) scB) := by
      simp [hs2, tblGet]
    simp only [Registry.query, hqr, hderef, DefObj.scope, e1, e2]
    simp [hscB, hscB2]
  · refine ⟨by simp [hs2, hclB, tblGet], fun nid => ?_⟩
    have hqr : queryRef ((register1 (register1 (initRegistry heap) iA).2 iB).2)
        (.node (.root nid (.element T none))) = some iA := by
      simp [queryRef, hs2, DNode.data, hsp, hemp, someAssign, hclasses, hclB, tblGet]
    have hderef : tblGet ((register1 (register1 (initRegistry heap) iA).2 iB).2).heap iA =
        some (.blotCtor nA clA (some (.single T)) scA) := by
      simp [hs2, tblGet, Ne.symm hne]
    simp only [Registry.query, hqr, hderef, DefObj.scope, e1, e2]
    simp [hscA, hscA2, hclB]

/-- C1 witness: A (name "a", tag "x", class "c1") then B (name "bgen",
tag "X", no class) into an empty registry; both the by-tag table and
the element query for tag "X" resolve to B (identity 1), not A. -/
theorem register_tag_tiebreak_witness :
    tblGet ((register1 (register1 (initRegistry tbHeap) 0).2 1).2).tags "X" = some 1 ∧
    Registry.query ((register1 (register1 (initRegistry tbHeap) 0).2 1).2)
      (.node (.root 42 (.element "X" none))) Scope.ANY = some 1 := by
  have h := register_tag_tiebreak tbHeap 0 1 (by decide) "a" "bgen" "X" "x" "X"
    (some "c1") none Scope.BLOCK_BLOT Scope.BLOCK_BLOT rfl rfl (by decide) (by decide)
    (by decide) (by decide) rfl rfl (by decide) (by decide) (by decide) (by decide)
  exact ⟨h.1, h.2 42⟩

/-- The by-tag insertion loop of `register`, in the shape it takes for
a class-less definition (the `className == null` disjunct holds, so
every tag slot is written): it touches only the `tags` table. -/
theorem tagFoldl_uncond (l : List String) (i : Nat) (r : Registry) :
    (l.foldl (fun acc tag => { acc with tags := (tag, i) :: acc.tags }) r).types = r.types ∧
    (l.foldl (fun acc tag => { acc with tags := (tag, i) :: acc.tags }) r).heap = r.heap := by
  induction l generalizing r with
  | nil => exact ⟨rfl, rfl⟩
  | cons t ts ih =>
    simp only [List.foldl_cons]
    exact ih _

/-- The by-tag insertion loop of `register` for a class-carrying
definition (only empty tag slots are written): it touches only the
`tags` table. -/
theorem tagFoldl_cond (l : List String) (i : Nat) (r : Registry) :
    (l.foldl (fun acc tag =>
        if tblGet acc.tags tag = none then
          { acc with tags := (tag, i) :: acc.tags }
        else acc) r).types = r.types ∧
    (l.foldl (fun acc tag =>
        if tblGet acc.tags tag = none then
          { acc with tags := (tag, i) :: acc.tags }
        else acc) r).heap = r.heap := by
  induction l generalizing r with
  | nil => exact ⟨rfl, rfl⟩
  | cons t ts ih =>
    simp only [List.foldl_cons]
    by_cases hc : tblGet r.tags t = none
    · simp only [if_pos hc]
      exact ih _
    · simp only [if_neg hc]
      exact ih r

/-- After a successful `register1`, the by-name table maps the
definition's declared name to its identity, and the definition's heap
entry keeps its declared scope (in-place tag normalization rewrites
only `tagName`). -/
theorem register1_types_heap (r : Registry) (i : Nat) (d : DefObj)
    (hd : tblGet r.heap i = some d) (hok : (register1 r i).1 = none) :
    tblGet (register1 r i).2.types d.defName = some i ∧
    ∃ d2 : DefObj, tblGet (register1 r i).2.heap i = some d2 ∧ d2.scope = d.scope := by
  cases d with
  | invalid => simp [register1, hd] at hok
  | attributor a k sc =>
    refine ⟨?_, .attributor a k sc, ?_, rfl⟩ <;>
      cases k <;> simp [register1, hd, DefObj.defName, tblGet]
  | blotCtor n cl tf sc =>
    by_cases hn : n = "abstract"
    · simp [register1, hd, hn] at hok
    · constructor
      · rcases tf with _ | tfv
        · rcases cl with _ | c
          · simp [register1, hd, hn, tblGet, DefObj.defName]
          · by_cases hc : c = "" <;>
              simp [register1, hd, hn, tblGet, DefObj.defName, hc]
        · rcases cl with _ | c
          · by_cases htr : tfv.truthy <;>
              simp [register1, hd, hn, tblGet, DefObj.defName, htr, tagFoldl_uncond, tagFoldl_cond]
          · by_cases hc : c = "" <;> by_cases htr : tfv.truthy <;>
              simp [register1, hd, hn, tblGet, DefObj.defName, hc, htr, tagFoldl_uncond, tagFoldl_cond]
      · rcases tf with _ | tfv
        · refine ⟨.blotCtor n cl none sc, ?_, rfl⟩
          rcases cl with _ | c
          · simp [register1, hd, hn, tblGet]
          · by_cases hc : c = "" <;> simp [register1, hd, hn, tblGet, hc]
        · by_cases htr : tfv.truthy
          · refine ⟨.blotCtor n cl (some tfv.upper) sc, ?_, rfl⟩
            rcases cl with _ | c
            · simp [register1, hd, hn, tblGet, htr, tagFoldl_uncond, tagFoldl_cond]
            · by_cases hc : c = "" <;>
                simp [register1, hd, hn, tblGet, hc, htr, tagFoldl_uncond, tagFoldl_cond]
          · refine ⟨.blotCtor n cl (some tfv) sc, ?_, rfl⟩
            rcases cl with _ | c
            · simp [register1, hd, hn, tblGet, htr]
            · by_cases hc : c = "" <;> simp [register1, hd, hn, tblGet, hc, htr]

/-- C8: a batch accepted by `register` is handed back as the same
definition objects (same identities, same order), and after a
successful single registration, querying the definition's declared name
under the default ANY scope returns the registered object itself (the
same identity, not a copy). -/
theorem register_identity_roundtrip :
    (∀ (r0 : Registry) (ids : List Nat) (r2 : Registry) (ret : List Nat),
      Registry.register r0 ids = (none, r2, ret) → ret = ids) ∧
    (∀ (r : Registry) (i : Nat) (d : DefObj),
      tblGet r.heap i = some d → (register1 r i).1 = none →
      Scope.LEVEL &&& d.scope ≠ 0 → Scope.TYPE &&& d.scope ≠ 0 →
      Registry.register r [i] = (none, (register1 r i).2, [i]) ∧
      Registry.query (register1 r i).2 (.str d.defName) Scope.ANY = some i) := by
  constructor
  · intro r0 ids
    induction ids generalizing r0 with
    | nil =>
      intro r2 ret h
      simp only [Registry.register] at h
      injection h with h1 h2
      injection h2 with h2a h2b
      exact h2b.symm
    | cons i rest ih =>
      intro r2 ret h
      rcases h1 : register1 r0 i with ⟨oe, ri⟩
      cases oe with
      | some e => simp [Registry.register, h1] at h
      | none =>
        rcases h2 : Registry.register ri rest with ⟨err, rr, done⟩
        simp only [Registry.register, h1, h2] at h
        obtain ⟨he, hrr, hret⟩ : err = none ∧ rr = r2 ∧ i :: done = ret := by
          injection h with ha hb
          injection hb with hb1 hb2
          exact ⟨ha.symm ▸ rfl, hb1, hb2⟩
        subst he
        rw [← hret, ih ri rr done h2]
  · intro r i d hd hok hl ht
    obtain ⟨htypes, d2, hh2, hsc2⟩ := register1_types_heap r i d hd hok
    constructor
    · rcases h1 : register1 r i with ⟨oe, r1⟩
      have hoe : oe = none := by rw [h1] at hok; exact hok
      subst hoe
      simp [Registry.register, h1]
    · have e1 : Scope.ANY &&& Scope.LEVEL = Scope.LEVEL := by decide
      have e2 : Scope.ANY &&& Scope.TYPE = Scope.TYPE := by decide
      have hqr : queryRef (register1 r i).2 (.str d.defName) = some i := by
        simp [queryRef, htypes]
      simp only [Registry.query, hqr, hh2, e1, e2, hsc2]
      simp [hl, ht]

/-- C8 witness: registering the bold blot returns it unchanged and
querying `"bold"` under ANY gives back the same object identity. -/
theorem register_identity_roundtrip_witness :
    (Registry.register (initRegistry wHeap) [1]).2.2 = [1] ∧
    Registry.register (initRegistry wHeap) [1] =
      (none, (register1 (initRegistry wHeap) 1).2, [1]) ∧
    Registry.query (register1 (initRegistry wHeap) 1).2 (.str "bold") Scope.ANY = some 1 := by
  refine ⟨?_, ?_⟩
  · exact register_identity_roundtrip.1 (initRegistry wHeap) [1]
      (Registry.register (initRegistry wHeap) [1]).2.1
      (Registry.register (initRegistry wHeap) [1]).2.2 rfl
  · exact register_identity_roundtrip.2 (initRegistry wHeap) 1
      (.blotCtor "bold" none (some (.single "b")) Scope.INLINE_BLOT)
      rfl rfl (by decide) (by decide)
